import Mathlib

/-!
# Verification of the orbinum proof-generator data pipeline

Shallow embedding of the TypeScript sources of `orbinum/proof-generator`:
field-element signal encoding/decoding (`src/utils.ts`), the range-checked
signal encoder (`formatPublicSignalsArray`), input validation and formatting,
the `generateProof` orchestrator (`src/index.ts`) and the selective-disclosure
orchestrator (`src/disclosure.ts`).

Hex strings of 64 hex characters are modelled as lists of 32 bytes (each byte
standing for one two-hex-character group, most significant first for the
big-endian rendering `value.toString(16).padStart(64, '0')`).  The byte-pair
reversal loops of the source are then list reversal.  Decimal strings are
modelled by the natural numbers they denote (rendered with `Nat.repr` where a
claim speaks about the string itself).
-/

namespace Orbinum

/-- BN254 scalar field modulus, `BN254_PRIME` from the source. -/
def PRIME : ℕ :=
  21888242871839275222246405745257275088696311157297823662689037894645226208583

/-- Big-endian base-256 digits of `n`, fixed width `k`: the embedding of
`value.toString(16).padStart(2*k, '0')` split into two-hex-char bytes. -/
def natToBytesBE : ℕ → ℕ → List ℕ
  | 0, _ => []
  | k + 1, n => natToBytesBE k (n / 256) ++ [n % 256]

/-- Parse a big-endian byte list back to a natural number
(the embedding of `BigInt('0x' + bigEndianHex)`). -/
def bytesToNat (bs : List ℕ) : ℕ :=
  bs.foldl (fun a b => a * 256 + b) 0

/-- 32-byte big-endian rendering, as in `toString(16).padStart(64, '0')`. -/
def toBytes32BE (n : ℕ) : List ℕ := natToBytesBE 32 n

/-- `formatPublicSignal` (src/utils.ts lines 184-209): render the value as
64 big-endian hex chars, then reverse the byte order to little-endian.
The `0x` prefix is implicit in the byte-list model.  No range check. -/
def formatPublicSignal (n : ℕ) : List ℕ := (toBytes32BE n).reverse

/-- `parsePublicSignal` (src/utils.ts lines 217-228): reverse the byte order
back to big-endian and parse as an integer. -/
def parsePublicSignal (bs : List ℕ) : ℕ := bytesToNat bs.reverse

/-- Generalised `foldl` form of `bytesToNat`. -/
theorem bytesToNat_foldl (a : ℕ) (bs : List ℕ) :
    bs.foldl (fun a b => a * 256 + b) a = a * 256 ^ bs.length + bytesToNat bs := by
  induction bs generalizing a with
  | nil => simp [bytesToNat]
  | cons b bs ih =>
    simp only [List.foldl_cons, List.length_cons, bytesToNat]
    rw [ih (a * 256 + b), ih (0 * 256 + b)]
    ring

/-- Decoding the fixed-width base-256 rendering recovers the value mod `256^k`. -/
theorem bytesToNat_natToBytesBE (k n : ℕ) :
    bytesToNat (natToBytesBE k n) = n % 256 ^ k := by
  induction k generalizing n with
  | zero => simp [natToBytesBE, bytesToNat, Nat.mod_one]
  | succ k ih =>
    simp only [natToBytesBE, bytesToNat, List.foldl_append, List.foldl_cons,
      List.foldl_nil] at ih ⊢
    rw [ih (n / 256), Nat.pow_succ, Nat.mul_comm (256 ^ k) 256, Nat.mod_mul]
    ring

theorem PRIME_lt_pow : PRIME < 256 ^ 32 := by decide

/-- C1.  For every `n` with `0 ≤ n < BN254_PRIME`, decoding the little-endian
public-signal encoding of `n` returns `n`:
`parsePublicSignal (formatPublicSignal n) = n`, hence the decimal string
produced by `parsePublicSignal` is the decimal string of `n`. -/
theorem parse_format_roundtrip (n : ℕ) (h : n < PRIME) :
    parsePublicSignal (formatPublicSignal n) = n ∧
      Nat.repr (parsePublicSignal (formatPublicSignal n)) = Nat.repr n := by
  have : parsePublicSignal (formatPublicSignal n) = n := by
    unfold parsePublicSignal formatPublicSignal toBytes32BE
    rw [List.reverse_reverse, bytesToNat_natToBytesBE]
    exact Nat.mod_eq_of_lt (lt_trans h PRIME_lt_pow)
  exact ⟨this, by rw [this]⟩

/-- Witness for C1 at `n = 100`. -/
theorem parse_format_roundtrip_witness :
    100 < PRIME ∧ parsePublicSignal (formatPublicSignal 100) = 100 :=
  ⟨by decide, (parse_format_roundtrip 100 (by decide)).1⟩

/-- One element of `formatPublicSignalsArray` (the current, range-checked
signal encoder): parse the value to a big integer (signed: a decimal string
may denote a negative integer), validate it against the BN254 field, then
render 64 big-endian hex chars and reverse to little-endian byte order. -/
def encodeFieldSignal (v : ℤ) : Except String (List ℕ) :=
  if v < 0 ∨ PRIME ≤ v then
    .error "Value out of BN254 field range"
  else
    .ok ((toBytes32BE v.toNat).reverse)

/-- `formatPublicSignalsArray` (range-checked version used by the current
`generateProof`): encode each signal left to right, failing on the first
out-of-range value (the `.map` callback throws, aborting the whole array). -/
def formatPublicSignalsArray : List ℤ → Except String (List (List ℕ))
  | [] => .ok []
  | v :: vs =>
    match encodeFieldSignal v with
    | .error e => .error e
    | .ok bs =>
      match formatPublicSignalsArray vs with
      | .error e => .error e
      | .ok rest => .ok (bs :: rest)

/-- C2.  The signal encoder validates `0 ≤ v < PRIME`: every out-of-range
value (negative or `≥ PRIME`) makes the single-value encoder fail, an array
containing an out-of-range value is never encoded, and conversely a
successfully encoded array contained only in-range values (nothing
out-of-range is silently encoded). -/
theorem signal_encoder_range_check (v : ℤ) (vs : List ℤ)
    (hv : v < 0 ∨ PRIME ≤ v) (hmem : v ∈ vs) :
    (∀ bs, encodeFieldSignal v ≠ .ok bs) ∧
      (∀ out, formatPublicSignalsArray vs ≠ .ok out) ∧
      (∀ ws out, formatPublicSignalsArray ws = .ok out →
        ∀ w ∈ ws, 0 ≤ w ∧ w < PRIME) := by
  have single : ∀ w : ℤ, (w < 0 ∨ PRIME ≤ w) → ∀ bs, encodeFieldSignal w ≠ .ok bs := by
    intro w hw bs
    simp [encodeFieldSignal, if_pos hw]
  have array : ∀ ws : List ℤ, ∀ w ∈ ws, (w < 0 ∨ PRIME ≤ w) →
      ∀ out, formatPublicSignalsArray ws ≠ .ok out := by
    intro ws
    induction ws with
    | nil => intro w hw; simp at hw
    | cons x xs ih =>
      intro w hw hrange out hok
      rcases hgood : encodeFieldSignal x with e | bs
      · simp [formatPublicSignalsArray, hgood] at hok
      · rcases List.mem_cons.mp hw with rfl | hxs
        · exact single w hrange bs hgood
        · rcases hrest : formatPublicSignalsArray xs with e | rest
          · simp [formatPublicSignalsArray, hgood, hrest] at hok
          · exact ih w hxs hrange rest hrest
  refine ⟨single v hv, array vs v hmem hv, ?_⟩
  intro ws out hok w hw
  by_contra hcon
  push_neg at hcon
  rcases lt_or_le w 0 with hneg | hpos
  · exact array ws w hw (Or.inl hneg) out hok
  · exact array ws w hw (Or.inr (hcon hpos)) out hok

/-- Witness for C2 at `v = -1` inside the array `[-1, 5]`. -/
theorem signal_encoder_range_check_witness :
    (∀ bs, encodeFieldSignal (-1) ≠ .ok bs) ∧
      (∀ out, formatPublicSignalsArray [-1, 5] ≠ .ok out) ∧
      (∀ ws out, formatPublicSignalsArray ws = .ok out →
        ∀ w ∈ ws, 0 ≤ w ∧ w < PRIME) :=
  signal_encoder_range_check (-1) [-1, 5] (Or.inl (by decide)) (by decide)

/-- A JavaScript value as it can appear in a circuit input bundle:
`null`, `undefined`, a string, a number, a bigint, or an array.
Numbers and bigints are modelled as naturals (the inputs in play are
non-negative integers). -/
inductive JSValue where
  | vnull
  | vundef
  | vstr (s : String)
  | vnum (n : ℕ)
  | vbig (n : ℕ)
  | varr (elems : List JSValue)

mutual

/-- The JavaScript `String(value)` coercion, restricted to `JSValue`:
`String(null) = "null"`, `String(undefined) = "undefined"`, numbers and
bigints render decimal, and an array renders as its elements joined by
commas (`Array.prototype.toString`). -/
def jsToString : JSValue → String
  | .vnull => "null"
  | .vundef => "undefined"
  | .vstr s => s
  | .vnum n => Nat.repr n
  | .vbig n => Nat.repr n
  | .varr es => String.intercalate "," (jsElemStrings es)

/-- Element strings for `Array.prototype.join`: `null` and `undefined`
elements render as the empty string. -/
def jsElemStrings : List JSValue → List String
  | [] => []
  | .vnull :: rest => "" :: jsElemStrings rest
  | .vundef :: rest => "" :: jsElemStrings rest
  | v :: rest => jsToString v :: jsElemStrings rest

end

/-- Value of one hex digit, both cases, as accepted by JS `BigInt('0x…')`. -/
def hexDigitVal (c : Char) : Option ℕ :=
  if '0' ≤ c ∧ c ≤ '9' then some (c.toNat - '0'.toNat)
  else if 'a' ≤ c ∧ c ≤ 'f' then some (c.toNat - 'a'.toNat + 10)
  else if 'A' ≤ c ∧ c ≤ 'F' then some (c.toNat - 'A'.toNat + 10)
  else none

/-- `BigInt('0x' + cs)`: parses big-endian hex, `none` models the JS
`SyntaxError` on an empty or malformed digit sequence. -/
def parseHexNat (cs : List Char) : Option ℕ :=
  if cs.isEmpty then none
  else
    cs.foldl
      (fun acc c =>
        match acc, hexDigitVal c with
        | some a, some d => some (a * 16 + d)
        | _, _ => none)
      (some 0)

/-- `formatInputValue` (src/utils.ts lines 22-36): a string is returned
as-is unless `0x`-prefixed (then parsed as hex and rendered decimal);
a bigint renders decimal; anything else falls through to `String(value)`. -/
def formatInputValue (v : JSValue) : Except String String :=
  match v with
  | .vstr s =>
    if s.startsWith "0x" then
      match parseHexNat (s.toList.drop 2) with
      | some n => .ok (Nat.repr n)
      | none => .error "Cannot convert string to a BigInt"
    else .ok s
  | .vbig n => .ok (Nat.repr n)
  | v => .ok (jsToString v)

/-- `formatInputArray` (src/utils.ts lines 45-47): `values.map(formatInputValue)`,
left to right, aborting on the first thrown conversion error. -/
def formatInputArray : List JSValue → Except String (List String)
  | [] => .ok []
  | v :: vs =>
    match formatInputValue v with
    | .error e => .error e
    | .ok s =>
      match formatInputArray vs with
      | .error e => .error e
      | .ok rest => .ok (s :: rest)

/-- The value type of the record returned by `formatCircuitInputs`:
`string | string[]`. -/
inductive FormattedValue where
  | scalar (s : String)
  | arr (ss : List String)
deriving DecidableEq

/-- One entry of the `formatCircuitInputs` loop: `Array.isArray(value)`
dispatches to `formatInputArray`, everything else to `formatInputValue`. -/
def formatCircuitEntry (v : JSValue) : Except String FormattedValue :=
  match v with
  | .varr vs =>
    match formatInputArray vs with
    | .error e => .error e
    | .ok ss => .ok (.arr ss)
  | v =>
    match formatInputValue v with
    | .error e => .error e
    | .ok s => .ok (.scalar s)

/-- `formatCircuitInputs` (src/utils.ts lines 64-78): iterate the entries in
order, formatting each value and preserving the keys. -/
def formatCircuitInputs : List (String × JSValue) →
    Except String (List (String × FormattedValue))
  | [] => .ok []
  | (k, v) :: rest =>
    match formatCircuitEntry v with
    | .error e => .error e
    | .ok fv =>
      match formatCircuitInputs rest with
      | .error e => .error e
      | .ok out => .ok ((k, fv) :: out)

/-- The raw argument passed to `generateProof` as `inputs`:
`null`/`undefined`, a non-object (fails `typeof inputs === 'object'`), or an
object with ordered entries. -/
inductive RawInputs where
  | nullish
  | nonObject
  | obj (entries : List (String × JSValue))

/-- `value === undefined || value === null`. -/
def isNullish : JSValue → Bool
  | .vnull => true
  | .vundef => true
  | _ => false

/-- `validateInputs` (src/utils.ts lines 257-268): reject a nullish or
non-object bundle, then reject on the first direct (top-level) entry whose
value is `null`/`undefined`.  Nested contents are not inspected. -/
def validateInputs : RawInputs → Except String Unit
  | .nullish => .error "Inputs must be an object"
  | .nonObject => .error "Inputs must be an object"
  | .obj kvs =>
    match kvs.find? (fun kv => isNullish kv.2) with
    | some kv => .error ("Input \"" ++ kv.1 ++ "\" is undefined or null")
    | none => .ok ()

/-- `validatePublicSignals` (src/utils.ts lines 273-277). -/
def validatePublicSignals (signals : List (List ℕ)) (expected : ℕ) :
    Except String Unit :=
  if signals.length = expected then .ok ()
  else .error "Invalid public signals count"

/-- Strip a leading `0x` if present (`startsWith('0x') ? slice(2) : hex`). -/
def strip0x (s : List Char) : List Char :=
  if s.take 2 = ['0', 'x'] then s.drop 2 else s

/-- `validateProofSize` (src/utils.ts lines 282-291): after stripping an
optional `0x` prefix the remaining string must have exactly 256 characters.
No other property of the characters is checked. -/
def validateProofSize (s : List Char) : Except String Unit :=
  if (strip0x s).length = 256 then .ok ()
  else .error "Invalid proof size"

/-- A lowercase hex character, `[0-9a-f]`. -/
def isLowerHexChar (c : Char) : Bool :=
  ('0' ≤ c && c ≤ '9') || ('a' ≤ c && c ≤ 'f')

/-- The success wire-format invariant `/^0x[0-9a-f]{256}$/`. -/
def matchesProofRegex (s : List Char) : Bool :=
  s.length = 258 && decide (s.take 2 = ['0', 'x']) && (s.drop 2).all isLowerHexChar

/-- `CircuitType` (src/types.ts). -/
inductive CircuitType where
  | unshield
  | transfer
  | disclosure
deriving DecidableEq

/-- `circuitType.toLowerCase()` on the enum's string values. -/
def circuitName : CircuitType → String
  | .unshield => "unshield"
  | .transfer => "transfer"
  | .disclosure => "disclosure"

/-- `getExpectedPublicSignals` (src/circuits.ts lines 29-40).  The lookup is
total on the enumeration; the TS `default` branch is unreachable. -/
def getExpectedPublicSignals : CircuitType → ℕ
  | .unshield => 5
  | .transfer => 5
  | .disclosure => 4

/-- `CircuitConfig` (src/types.ts / src/circuits.ts). -/
structure CircuitConfig where
  name : String
  wasmPath : String
  zkeyPath : String
  provingKeyPath : String
  expectedPublicSignals : ℕ
deriving DecidableEq

/-- `getCircuitConfig` (src/circuits.ts lines 18-27). -/
def getCircuitConfig (ct : CircuitType) : CircuitConfig :=
  { name := circuitName ct
    wasmPath := circuitName ct ++ ".wasm"
    zkeyPath := circuitName ct ++ "_pk.zkey"
    provingKeyPath := circuitName ct ++ "_pk.ark"
    expectedPublicSignals := getExpectedPublicSignals ct }

/-- The error kinds thrown by `generateProof` (src/types.ts). -/
inductive PGError where
  | invalidInputs (msg : String)
  | circuitNotFound (ct : CircuitType)
  | proofGeneration (msg : String)
deriving DecidableEq

/-- `ProofResult` (src/types.ts): compressed proof hex, wire-encoded public
signals, circuit type. -/
structure ProofResult where
  proof : List Char
  publicSignals : List (List ℕ)
  circuitType : CircuitType
deriving DecidableEq

/-- Which external effects `generateProof` reached: artifact access
(`validateCircuitArtifacts` / reading wasm+zkey) and prover invocation
(`snarkjs.groth16.fullProve`). -/
structure PGTrace where
  artifactsAccessed : Bool
  proverInvoked : Bool
deriving DecidableEq

/-- `generateProof` (src/index.ts lines 269-354), with the external
boundaries as parameters: `artifactsOk` is the outcome of
`validateCircuitArtifacts`, `proverRes` the public signals of
`snarkjs.groth16.fullProve` (its native proof object stays abstract), and
`compressRes` the hex string produced by `compressSnarkjsProofWasm`.
Step order follows the source: config lookup (total), `validateInputs`
(failure → InvalidInputsError before any artifact access), artifact
validation (failure → CircuitNotFoundError), then prove / compress /
`validateProofSize` / `formatPublicSignalsArray` inside one try-block whose
failures become ProofGenerationError, and finally `validatePublicSignals`,
whose failure also becomes ProofGenerationError. -/
def generateProof (ct : CircuitType) (inputs : RawInputs) (artifactsOk : Bool)
    (proverRes : Except String (List ℤ)) (compressRes : Except String (List Char)) :
    Except PGError ProofResult × PGTrace :=
  match validateInputs inputs with
  | .error m => (.error (.invalidInputs m), ⟨false, false⟩)
  | .ok _ =>
    if artifactsOk then
      match proverRes with
      | .error m => (.error (.proofGeneration m), ⟨true, true⟩)
      | .ok signals =>
        match compressRes with
        | .error m => (.error (.proofGeneration m), ⟨true, true⟩)
        | .ok proofHex =>
          match validateProofSize proofHex with
          | .error m => (.error (.proofGeneration m), ⟨true, true⟩)
          | .ok _ =>
            match formatPublicSignalsArray signals with
            | .error m => (.error (.proofGeneration m), ⟨true, true⟩)
            | .ok sigHex =>
              match validatePublicSignals sigHex
                  (getCircuitConfig ct).expectedPublicSignals with
              | .error m => (.error (.proofGeneration m), ⟨true, true⟩)
              | .ok _ => (.ok ⟨proofHex, sigHex, ct⟩, ⟨true, true⟩)
    else (.error (.circuitNotFound ct), ⟨true, false⟩)

/-- `DisclosureMask` (src/types.ts): three independent booleans. -/
structure DisclosureMask where
  discloseValue : Bool
  discloseAssetId : Bool
  discloseOwner : Bool
deriving DecidableEq

/-- Modelled from the spec: `u64ToFieldStr` is imported by
`src/disclosure.ts` but its definition is not under src/.  Per §4.5 the
private inputs `value, asset_id` are "passed through as decimal strings";
decimal strings are modelled by the naturals they denote. -/
def u64ToFieldStr (n : ℕ) : ℕ := n

/-- The snarkjs input record built by `buildCircuitInputs`
(src/disclosure.ts).  Decimal-string fields are modelled as naturals; the
three mask flags are kept as the literal strings the source produces. -/
structure DisclosureCircuitInputs where
  commitment : ℕ
  revealed_value : ℕ
  revealed_asset_id : ℕ
  revealed_owner_hash : ℕ
  value : ℕ
  asset_id : ℕ
  owner_pubkey : ℕ
  blinding : ℕ
  viewing_key : ℕ
  disclose_value : String
  disclose_asset_id : String
  disclose_owner : String
deriving DecidableEq

/-- `buildCircuitInputs` (src/disclosure.ts lines 38-68), with the Poseidon
hash abstracted as `H : ℕ → ℕ` applied to the single element `ownerPubkey`
(the source calls `poseidon([ownerPubkey])`, arity one). -/
def buildCircuitInputs (H : ℕ → ℕ)
    (value ownerPubkey blinding assetId commitment : ℕ) (mask : DisclosureMask) :
    DisclosureCircuitInputs :=
  let viewingKey := H ownerPubkey
  { commitment := commitment
    revealed_value := if mask.discloseValue then value else 0
    revealed_asset_id := if mask.discloseAssetId then assetId else 0
    revealed_owner_hash := if mask.discloseOwner then viewingKey else 0
    value := u64ToFieldStr value
    asset_id := u64ToFieldStr assetId
    owner_pubkey := ownerPubkey
    blinding := blinding
    viewing_key := viewingKey
    disclose_value := if mask.discloseValue then "1" else "0"
    disclose_asset_id := if mask.discloseAssetId then "1" else "0"
    disclose_owner := if mask.discloseOwner then "1" else "0" }

/-- Modelled from the spec: `hexSignalToBigInt` is imported by
`src/disclosure.ts` but its definition is not under src/.  Per §4.1
(`decodeSignalLE`) it strips `0x`, reverses the byte pairs back to
big-endian and parses as an integer — on 32-byte wire signals this is
exactly `parsePublicSignal`. -/
def hexSignalToBigInt (bs : List ℕ) : ℕ := bytesToNat bs.reverse

/-- Modelled from the spec: `bigIntToHex` is imported by `src/disclosure.ts`
but its definition is not under src/.  Per §4.1 (`fieldToHexBE`) it renders
`0x` + 64 big-endian hex chars, no byte reversal. -/
def bigIntToHex (n : ℕ) : List ℕ := toBytes32BE n

/-- `revealedData` (src/disclosure.ts): `commitment` always present in wire
form; the other three fields optional. -/
structure RevealedData where
  commitment : List ℕ
  value : Option String
  assetId : Option ℕ
  ownerHash : Option (List ℕ)
deriving DecidableEq

/-- `DisclosureProofOutput` (src/types.ts). -/
structure DisclosureProofOutput where
  proof : List Char
  publicSignals : List (List ℕ)
  revealedData : RevealedData
deriving DecidableEq

/-- Which steps `generateDisclosureProof` reached: the viewing-key
derivation inside `buildCircuitInputs`, and the call to `generateProof`. -/
structure DisclosureTrace where
  derivedViewingKey : Bool
  proverInvoked : Bool
deriving DecidableEq

/-- `generateDisclosureProof` (src/disclosure.ts lines 85-117): all-false
mask fails immediately; otherwise build the circuit inputs (deriving the
viewing key), call `generateProof` (abstracted as `prover`), destructure the
four public signals, and build `revealedData` with a field present iff its
mask flag is set. -/
def generateDisclosureProof (H : ℕ → ℕ)
    (prover : DisclosureCircuitInputs → Except String ProofResult)
    (value ownerPubkey blinding assetId commitment : ℕ) (mask : DisclosureMask) :
    Except String DisclosureProofOutput × DisclosureTrace :=
  if !mask.discloseValue && !mask.discloseAssetId && !mask.discloseOwner then
    (.error
      "DisclosureMask: at least one field (discloseValue, discloseAssetId, discloseOwner) must be true",
      ⟨false, false⟩)
  else
    let inputs := buildCircuitInputs H value ownerPubkey blinding assetId commitment mask
    match prover inputs with
    | .error e => (.error e, ⟨true, true⟩)
    | .ok r =>
      let sigCommitment := r.publicSignals.getD 0 []
      let sigValue := r.publicSignals.getD 1 []
      let sigAssetId := r.publicSignals.getD 2 []
      let sigOwnerHash := r.publicSignals.getD 3 []
      let revealed : RevealedData :=
        { commitment := sigCommitment
          value :=
            if mask.discloseValue then some (Nat.repr (hexSignalToBigInt sigValue))
            else none
          assetId :=
            if mask.discloseAssetId then some (hexSignalToBigInt sigAssetId)
            else none
          ownerHash :=
            if mask.discloseOwner then some (bigIntToHex (hexSignalToBigInt sigOwnerHash))
            else none }
      (.ok ⟨r.proof, r.publicSignals, revealed⟩, ⟨true, true⟩)

/-- C3.  When all three disclosure mask flags are false,
`generateDisclosureProof` fails immediately with the DisclosureMask
validation error, before the viewing-key derivation and before the prover
is invoked (trace `⟨false, false⟩`). -/
theorem mask_all_false_rejected (H : ℕ → ℕ)
    (prover : DisclosureCircuitInputs → Except String ProofResult)
    (value ownerPubkey blinding assetId commitment : ℕ) (mask : DisclosureMask)
    (hv : mask.discloseValue = false) (ha : mask.discloseAssetId = false)
    (ho : mask.discloseOwner = false) :
    generateDisclosureProof H prover value ownerPubkey blinding assetId commitment mask =
      (.error
        "DisclosureMask: at least one field (discloseValue, discloseAssetId, discloseOwner) must be true",
        ⟨false, false⟩) := by
  simp [generateDisclosureProof, hv, ha, ho]

/-- Witness for C3: a concrete all-false mask. -/
theorem mask_all_false_rejected_witness :
    generateDisclosureProof id (fun _ => .error "prover unreachable") 100 2 3 7 5
        ⟨false, false, false⟩ =
      (.error
        "DisclosureMask: at least one field (discloseValue, discloseAssetId, discloseOwner) must be true",
        ⟨false, false⟩) :=
  mask_all_false_rejected id _ 100 2 3 7 5 ⟨false, false, false⟩ rfl rfl rfl

/-- C5.  The circuit inputs passed to the prover satisfy: `viewing_key` is
the designated one-way hash applied to the single element `ownerPubkey`;
`commitment` is passed through unchanged; `revealed_value` is `value` iff
`discloseValue` else 0, similarly for `revealed_asset_id` and
`revealed_owner_hash`; and the three mask flags are the strings "1"/"0".
The last conjunct shows `generateDisclosureProof` consults the prover only
at exactly `buildCircuitInputs …`, i.e. these are the inputs it passes. -/
theorem circuit_inputs_built_correctly (H : ℕ → ℕ)
    (value ownerPubkey blinding assetId commitment : ℕ) (mask : DisclosureMask) :
    (buildCircuitInputs H value ownerPubkey blinding assetId commitment mask).viewing_key =
        H ownerPubkey ∧
    (buildCircuitInputs H value ownerPubkey blinding assetId commitment mask).commitment =
        commitment ∧
    (buildCircuitInputs H value ownerPubkey blinding assetId commitment mask).revealed_value =
        (if mask.discloseValue then value else 0) ∧
    (buildCircuitInputs H value ownerPubkey blinding assetId commitment mask).revealed_asset_id =
        (if mask.discloseAssetId then assetId else 0) ∧
    (buildCircuitInputs H value ownerPubkey blinding assetId commitment mask).revealed_owner_hash =
        (if mask.discloseOwner then H ownerPubkey else 0) ∧
    (buildCircuitInputs H value ownerPubkey blinding assetId commitment mask).disclose_value =
        (if mask.discloseValue then "1" else "0") ∧
    (buildCircuitInputs H value ownerPubkey blinding assetId commitment mask).disclose_asset_id =
        (if mask.discloseAssetId then "1" else "0") ∧
    (buildCircuitInputs H value ownerPubkey blinding assetId commitment mask).disclose_owner =
        (if mask.discloseOwner then "1" else "0") ∧
    (∀ p₁ p₂ : DisclosureCircuitInputs → Except String ProofResult,
      p₁ (buildCircuitInputs H value ownerPubkey blinding assetId commitment mask) =
        p₂ (buildCircuitInputs H value ownerPubkey blinding assetId commitment mask) →
      generateDisclosureProof H p₁ value ownerPubkey blinding assetId commitment mask =
        generateDisclosureProof H p₂ value ownerPubkey blinding assetId commitment mask) := by
  refine ⟨rfl, rfl, rfl, rfl, rfl, rfl, rfl, rfl, ?_⟩
  intro p₁ p₂ hp
  by_cases hm : (!mask.discloseValue && !mask.discloseAssetId && !mask.discloseOwner) = true
  · simp [generateDisclosureProof, hm]
  · simp only [generateDisclosureProof, if_neg hm]
    rw [hp]

/-- C7.  An input bundle that is null, not a mapping, or has a
null/undefined direct value makes `generateProof` fail with
InvalidInputsError with no artifact access and no prover invocation
(trace `⟨false, false⟩`). -/
theorem invalid_inputs_rejected_early (ct : CircuitType) (artifactsOk : Bool)
    (proverRes : Except String (List ℤ)) (compressRes : Except String (List Char))
    (inputs : RawInputs)
    (hbad : inputs = .nullish ∨ inputs = .nonObject ∨
      ∃ kvs, inputs = .obj kvs ∧ ∃ kv ∈ kvs, isNullish kv.2 = true) :
    ∃ m, generateProof ct inputs artifactsOk proverRes compressRes =
      (.error (.invalidInputs m), ⟨false, false⟩) := by
  have hval : ∃ m, validateInputs inputs = .error m := by
    rcases hbad with rfl | rfl | ⟨kvs, rfl, kv, hmem, hnull⟩
    · exact ⟨_, rfl⟩
    · exact ⟨_, rfl⟩
    · have hfind : (kvs.find? (fun kv => isNullish kv.2)).isSome := by
        exact List.find?_isSome.mpr ⟨kv, hmem, hnull⟩
      rcases hsome : kvs.find? (fun kv => isNullish kv.2) with _ | found
      · rw [hsome] at hfind; simp at hfind
      · exact ⟨"Input \"" ++ found.1 ++ "\" is undefined or null",
          by simp [validateInputs, hsome]⟩
  rcases hval with ⟨m, hm⟩
  exact ⟨m, by simp [generateProof, hm]⟩

/-- Witness for C7: the spec's negative scenario `{merkle_root: null}`. -/
theorem invalid_inputs_rejected_early_witness :
    ∃ m, generateProof .unshield (.obj [("merkle_root", .vnull)]) true
        (.ok [1, 2, 3, 4, 5]) (.ok (List.replicate 258 'a')) =
      (.error (.invalidInputs m), ⟨false, false⟩) :=
  invalid_inputs_rejected_early .unshield true (.ok [1, 2, 3, 4, 5])
    (.ok (List.replicate 258 'a')) (.obj [("merkle_root", .vnull)])
    (Or.inr (Or.inr ⟨[("merkle_root", .vnull)], rfl, ("merkle_root", .vnull),
      List.mem_singleton_self _, rfl⟩))

/-- C10.  `validateInputs` inspects only direct (top-level) values: a bundle
whose top-level values are all non-nullish passes validation even if a
sequence value contains `null` elements, and such a bundle proceeds to the
prover. -/
theorem validation_is_shallow (ct : CircuitType) (kvs : List (String × JSValue))
    (proverRes : Except String (List ℤ)) (compressRes : Except String (List Char))
    (htop : ∀ kv ∈ kvs, isNullish kv.2 = false) :
    validateInputs (.obj kvs) = .ok () ∧
    (generateProof ct (.obj kvs) true proverRes compressRes).2.proverInvoked = true := by
  have hfind : kvs.find? (fun kv => isNullish kv.2) = none := by
    apply List.find?_eq_none.mpr
    intro kv hmem
    simp [htop kv hmem]
  have hval : validateInputs (.obj kvs) = .ok () := by
    simp [validateInputs, hfind]
  refine ⟨hval, ?_⟩
  unfold generateProof
  rw [hval]
  rcases proverRes with m | signals
  · rfl
  · rcases compressRes with m | proofHex
    · rfl
    · rcases h1 : validateProofSize proofHex with m | u
      · simp [h1]
      · rcases h2 : formatPublicSignalsArray signals with m | sigHex
        · simp [h1, h2]
        · rcases h3 : validatePublicSignals sigHex
              (getCircuitConfig ct).expectedPublicSignals with m | u
          · simp [h1, h2, h3]
          · simp [h1, h2, h3]

/-- Witness for C10: the claim's example `{path: [null]}` with a prover that
returns five in-range signals. -/
theorem validation_is_shallow_witness :
    validateInputs (.obj [("path", .varr [.vnull])]) = .ok () ∧
    (generateProof .unshield (.obj [("path", .varr [.vnull])]) true
        (.ok [1, 2, 3, 4, 5]) (.ok (List.replicate 258 'a'))).2.proverInvoked = true :=
  validation_is_shallow .unshield [("path", .varr [.vnull])]
    (.ok [1, 2, 3, 4, 5]) (.ok (List.replicate 258 'a')) (by decide)

/-- Witness for C5: concrete hash, values and mask; applies both a field
equation and the prover-dependence conjunct. -/
theorem circuit_inputs_built_correctly_witness :
    generateDisclosureProof Nat.succ (fun _ => .error "a") 100 2 3 7 5
        ⟨true, false, true⟩ =
      generateDisclosureProof Nat.succ (fun _ => .error "a") 100 2 3 7 5
        ⟨true, false, true⟩ ∧
    (buildCircuitInputs Nat.succ 100 2 3 7 5 ⟨true, false, true⟩).viewing_key = 3 :=
  ⟨(circuit_inputs_built_correctly Nat.succ 100 2 3 7 5
      ⟨true, false, true⟩).2.2.2.2.2.2.2.2 _ _ rfl,
    by rw [(circuit_inputs_built_correctly Nat.succ 100 2 3 7 5
      ⟨true, false, true⟩).1]⟩

/-- C4.  On every successful disclosure call, `revealedData` contains
exactly the fields whose mask flag is set, plus `commitment`
unconditionally: `commitment` is signal 0 kept in wire form; `value` is
present (decoded to a decimal string) iff `discloseValue`; `assetId` is
present (decoded to a number) iff `discloseAssetId`; `ownerHash` is present
(decoded, then re-encoded as big-endian hex) iff `discloseOwner`;
non-disclosed fields are `none`, not present-as-zero. -/
theorem revealed_data_matches_mask (H : ℕ → ℕ)
    (prover : DisclosureCircuitInputs → Except String ProofResult)
    (value ownerPubkey blinding assetId commitment : ℕ) (mask : DisclosureMask)
    (out : DisclosureProofOutput) (tr : DisclosureTrace)
    (hok : generateDisclosureProof H prover value ownerPubkey blinding assetId
      commitment mask = (.ok out, tr)) :
    out.revealedData.commitment = out.publicSignals.getD 0 [] ∧
    out.revealedData.value =
      (if mask.discloseValue then
        some (Nat.repr (hexSignalToBigInt (out.publicSignals.getD 1 []))) else none) ∧
    out.revealedData.assetId =
      (if mask.discloseAssetId then
        some (hexSignalToBigInt (out.publicSignals.getD 2 [])) else none) ∧
    out.revealedData.ownerHash =
      (if mask.discloseOwner then
        some (bigIntToHex (hexSignalToBigInt (out.publicSignals.getD 3 []))) else none) := by
  cases hb : (!mask.discloseValue && !mask.discloseAssetId && !mask.discloseOwner) with
  | true =>
    obtain ⟨hv', ha', ho'⟩ :
        mask.discloseValue = false ∧ mask.discloseAssetId = false ∧
          mask.discloseOwner = false := by
      revert hb
      cases mask.discloseValue <;> cases mask.discloseAssetId <;>
        cases mask.discloseOwner <;> simp
    simp [generateDisclosureProof, hv', ha', ho'] at hok
  | false =>
    unfold generateDisclosureProof at hok
    rw [hb, if_neg Bool.false_ne_true] at hok
    simp only [] at hok
    rcases hp : prover (buildCircuitInputs H value ownerPubkey blinding assetId
        commitment mask) with e | r
    · rw [hp] at hok
      simp at hok
    · rw [hp] at hok
      rw [Prod.mk.injEq] at hok
      obtain ⟨h1, _⟩ := hok
      injection h1 with h1
      subst h1
      constructor
      · rfl
      · constructor
        · rfl
        · exact ⟨rfl, rfl⟩

/-- Witness for C4: mask `{value: true, assetId: false, owner: false}` with
a prover returning four concrete wire signals. -/
theorem revealed_data_matches_mask_witness :
    ∃ out : DisclosureProofOutput,
      generateDisclosureProof id
          (fun _ => .ok ⟨['p'], [[1], [100], [7], [9]], .disclosure⟩)
          100 2 3 7 5 ⟨true, false, false⟩ = (.ok out, ⟨true, true⟩) ∧
      (out.revealedData.commitment = out.publicSignals.getD 0 [] ∧
        out.revealedData.value =
          (if (⟨true, false, false⟩ : DisclosureMask).discloseValue then
            some (Nat.repr (hexSignalToBigInt (out.publicSignals.getD 1 []))) else none) ∧
        out.revealedData.assetId =
          (if (⟨true, false, false⟩ : DisclosureMask).discloseAssetId then
            some (hexSignalToBigInt (out.publicSignals.getD 2 [])) else none) ∧
        out.revealedData.ownerHash =
          (if (⟨true, false, false⟩ : DisclosureMask).discloseOwner then
            some (bigIntToHex (hexSignalToBigInt (out.publicSignals.getD 3 []))) else none)) :=
  ⟨_, rfl, revealed_data_matches_mask id
    (fun _ => .ok ⟨['p'], [[1], [100], [7], [9]], .disclosure⟩)
    100 2 3 7 5 ⟨true, false, false⟩ _ ⟨true, true⟩ rfl⟩

/-- `formatPublicSignalsArray` preserves the signal count on success. -/
theorem formatPublicSignalsArray_length (vs : List ℤ) (out : List (List ℕ))
    (h : formatPublicSignalsArray vs = .ok out) : out.length = vs.length := by
  induction vs generalizing out with
  | nil =>
    simp only [formatPublicSignalsArray] at h
    injection h with h
    simp [← h]
  | cons v vs ih =>
    rcases h1 : encodeFieldSignal v with e | bs
    · simp [formatPublicSignalsArray, h1] at h
    · rcases h2 : formatPublicSignalsArray vs with e | rest
      · simp [formatPublicSignalsArray, h1, h2] at h
      · simp only [formatPublicSignalsArray, h1, h2] at h
        injection h with h
        simp [← h, ih rest h2]

/-- C6.  The expected public-signal count is 5 for Unshield, 5 for Transfer
and 4 for Disclosure; a prover output whose signal count differs from the
expected count makes `generateProof` fail with ProofGenerationError even
though proving itself succeeded; and on success `publicSignals` has exactly
the expected length. -/
theorem signal_count_contract (ct : CircuitType) (inputs : RawInputs)
    (signals : List ℤ) (compressRes : Except String (List Char)) :
    (getExpectedPublicSignals .unshield = 5 ∧ getExpectedPublicSignals .transfer = 5 ∧
      getExpectedPublicSignals .disclosure = 4) ∧
    (∀ (hvalid : validateInputs inputs = .ok ()) (proofHex : List Char)
        (hcomp : compressRes = .ok proofHex)
        (hsize : validateProofSize proofHex = .ok ())
        (sigHex : List (List ℕ))
        (hfmt : formatPublicSignalsArray signals = .ok sigHex)
        (hcount : signals.length ≠ getExpectedPublicSignals ct),
      ∃ m, (generateProof ct inputs true (.ok signals) compressRes).1 =
        .error (.proofGeneration m)) ∧
    (∀ (artifactsOk : Bool) (proverRes : Except String (List ℤ))
        (r : ProofResult) (tr : PGTrace),
      generateProof ct inputs artifactsOk proverRes compressRes = (.ok r, tr) →
      r.publicSignals.length = getExpectedPublicSignals ct) := by
  refine ⟨⟨rfl, rfl, rfl⟩, ?_, ?_⟩
  · intro hvalid proofHex hcomp hsize sigHex hfmt hcount
    have hlen : sigHex.length ≠ (getCircuitConfig ct).expectedPublicSignals := by
      rw [formatPublicSignalsArray_length signals sigHex hfmt]
      exact hcount
    refine ⟨"Invalid public signals count", ?_⟩
    subst hcomp
    simp [generateProof, hvalid, hsize, hfmt, validatePublicSignals, hlen]
  · intro artifactsOk proverRes r tr hok
    rcases hv : validateInputs inputs with m | u
    · simp [generateProof, hv] at hok
    · rcases u
      rcases artifactsOk with _ | _
      · simp [generateProof, hv] at hok
      · rcases proverRes with m | signals'
        · simp [generateProof, hv] at hok
        · rcases compressRes with m | proofHex
          · simp [generateProof, hv] at hok
          · rcases h1 : validateProofSize proofHex with m | u
            · simp [generateProof, hv, h1] at hok
            · rcases h2 : formatPublicSignalsArray signals' with m | sigHex
              · simp [generateProof, hv, h1, h2] at hok
              · rcases h3 : validatePublicSignals sigHex
                    (getCircuitConfig ct).expectedPublicSignals with m | u
                · simp [generateProof, hv, h1, h2, h3] at hok
                · simp only [generateProof, hv, h1, h2, h3] at hok
                  rw [Prod.mk.injEq] at hok
                  obtain ⟨hr, _⟩ := hok
                  injection hr with hr
                  have hcnt : sigHex.length = (getCircuitConfig ct).expectedPublicSignals := by
                    by_contra hc
                    simp [validatePublicSignals, hc] at h3
                  rw [← hr]
                  exact hcnt

set_option maxRecDepth 8000 in
/-- Witness for C6: Disclosure expects 4 signals but the prover returned 5,
yielding ProofGenerationError. -/
theorem signal_count_contract_witness :
    (getExpectedPublicSignals .unshield = 5 ∧ getExpectedPublicSignals .transfer = 5 ∧
      getExpectedPublicSignals .disclosure = 4) ∧
    ∃ m, (generateProof .disclosure (.obj [("a", .vnum 1)]) true
        (.ok [1, 2, 3, 4, 5]) (.ok ('0' :: 'x' :: List.replicate 256 'a'))).1 =
      .error (.proofGeneration m) :=
  ⟨(signal_count_contract .disclosure (.obj [("a", .vnum 1)]) [1, 2, 3, 4, 5]
      (.ok ('0' :: 'x' :: List.replicate 256 'a'))).1,
    (signal_count_contract .disclosure (.obj [("a", .vnum 1)]) [1, 2, 3, 4, 5]
      (.ok ('0' :: 'x' :: List.replicate 256 'a'))).2.1 rfl
      ('0' :: 'x' :: List.replicate 256 'a') rfl rfl _ rfl (by decide)⟩

set_option maxRecDepth 8000 in
/-- Counterexample for C9.  The post-hoc size check accepts the 256-char
non-hex compressor output `'z' * 256` (no `0x` prefix, not hex), the call
succeeds, and the returned proof string does not match
`/^0x[0-9a-f]{256}$/`. -/
theorem proof_regex_counterexample :
    validateProofSize (List.replicate 256 'z') = .ok () ∧
    (generateProof .unshield (.obj [("merkle_root", .vnum 1)]) true
        (.ok [1, 2, 3, 4, 5]) (.ok (List.replicate 256 'z'))).1 =
      .ok ⟨List.replicate 256 'z',
        [(toBytes32BE 1).reverse, (toBytes32BE 2).reverse, (toBytes32BE 3).reverse,
          (toBytes32BE 4).reverse, (toBytes32BE 5).reverse], .unshield⟩ ∧
    matchesProofRegex (List.replicate 256 'z') = false :=
  ⟨rfl, rfl, rfl⟩

/-- C9 (amended).  On success the returned proof string is the compressor
output unchanged, and the post-hoc size check guarantees only that it has
256 characters after stripping an optional `0x` prefix; it matches
`/^0x[0-9a-f]{256}$/` whenever the compressor output already does. -/
theorem proof_size_check_amended (ct : CircuitType) (inputs : RawInputs)
    (artifactsOk : Bool) (proverRes : Except String (List ℤ)) (s : List Char)
    (r : ProofResult) (tr : PGTrace)
    (hok : generateProof ct inputs artifactsOk proverRes (.ok s) = (.ok r, tr)) :
    r.proof = s ∧ (strip0x s).length = 256 ∧
      (matchesProofRegex s = true → matchesProofRegex r.proof = true) := by
  rcases hv : validateInputs inputs with m | u
  · simp [generateProof, hv] at hok
  · rcases u
    rcases artifactsOk with _ | _
    · simp [generateProof, hv] at hok
    · rcases proverRes with m | signals
      · simp [generateProof, hv] at hok
      · rcases h1 : validateProofSize s with m | u
        · simp [generateProof, hv, h1] at hok
        · rcases h2 : formatPublicSignalsArray signals with m | sigHex
          · simp [generateProof, hv, h1, h2] at hok
          · rcases h3 : validatePublicSignals sigHex
                (getCircuitConfig ct).expectedPublicSignals with m | u
            · simp [generateProof, hv, h1, h2, h3] at hok
            · simp only [generateProof, hv, h1, h2, h3] at hok
              rw [Prod.mk.injEq] at hok
              obtain ⟨hr, _⟩ := hok
              injection hr with hr
              have hproof : r.proof = s := by rw [← hr]
              have hlen : (strip0x s).length = 256 := by
                by_contra hc
                simp [validateProofSize, hc] at h1
              exact ⟨hproof, hlen, fun h => by rw [hproof]; exact h⟩

set_option maxRecDepth 8000 in
/-- Witness for C9 (amended): a well-formed `0x`-prefixed lowercase-hex
compressor output propagates to the result and satisfies the regex. -/
theorem proof_size_check_amended_witness :
    ∃ r : ProofResult, ∃ tr : PGTrace,
      generateProof .unshield (.obj [("a", .vnum 1)]) true (.ok [1, 2, 3, 4, 5])
          (.ok ('0' :: 'x' :: List.replicate 256 'a')) = (.ok r, tr) ∧
      r.proof = '0' :: 'x' :: List.replicate 256 'a' ∧
      (strip0x ('0' :: 'x' :: List.replicate 256 'a')).length = 256 :=
  ⟨_, _, rfl,
    (proof_size_check_amended .unshield (.obj [("a", .vnum 1)]) true
      (.ok [1, 2, 3, 4, 5]) ('0' :: 'x' :: List.replicate 256 'a') _ _ rfl).1,
    (proof_size_check_amended .unshield (.obj [("a", .vnum 1)]) true
      (.ok [1, 2, 3, 4, 5]) ('0' :: 'x' :: List.replicate 256 'a') _ _ rfl).2.1⟩

/-- Counterexample for C8.  A 2-level nested sequence (a matrix-shaped
Merkle-path input) is not converted element-wise at the leaves: each inner
array falls through to the JS `String()` coercion and collapses to one
comma-joined string, which is not a decimal numeral. -/
theorem formatter_nesting_counterexample :
    formatCircuitInputs
        [("path_elements", .varr [.varr [.vnum 1, .vnum 2], .varr [.vnum 3, .vnum 4]])] =
      .ok [("path_elements", .arr ["1,2", "3,4"])] ∧
    ("1,2".toList.all Char.isDigit) = false :=
  ⟨rfl, rfl⟩

/-- `formatInputArray` preserves the element count on success. -/
theorem formatInputArray_length (vs : List JSValue) (ss : List String)
    (h : formatInputArray vs = .ok ss) : ss.length = vs.length := by
  induction vs generalizing ss with
  | nil =>
    simp only [formatInputArray] at h
    injection h with h
    simp [← h]
  | cons v vs ih =>
    rcases h1 : formatInputValue v with e | s
    · simp [formatInputArray, h1] at h
    · rcases h2 : formatInputArray vs with e | rest
      · simp [formatInputArray, h1, h2] at h
      · simp only [formatInputArray, h1, h2] at h
        injection h with h
        simp [← h, ih rest h2]

/-- A non-array entry is formatted by `formatInputValue` into a scalar. -/
theorem formatCircuitEntry_nonarr (v : JSValue) (fv : FormattedValue)
    (hnv : ∀ vs, v ≠ .varr vs) (he : formatCircuitEntry v = .ok fv) :
    ∃ s, fv = .scalar s ∧ formatInputValue v = .ok s := by
  cases v with
  | varr vs => exact absurd rfl (hnv vs)
  | vnull =>
    rcases h1 : formatInputValue .vnull with e | s
    · simp [formatCircuitEntry, h1] at he
    · simp only [formatCircuitEntry, h1] at he
      injection he with he
      subst he
      exact ⟨s, rfl, rfl⟩
  | vundef =>
    rcases h1 : formatInputValue .vundef with e | s
    · simp [formatCircuitEntry, h1] at he
    · simp only [formatCircuitEntry, h1] at he
      injection he with he
      subst he
      exact ⟨s, rfl, rfl⟩
  | vstr s₀ =>
    rcases h1 : formatInputValue (.vstr s₀) with e | s
    · simp [formatCircuitEntry, h1] at he
    · simp only [formatCircuitEntry, h1] at he
      injection he with he
      subst he
      exact ⟨s, rfl, rfl⟩
  | vnum n =>
    rcases h1 : formatInputValue (.vnum n) with e | s
    · simp [formatCircuitEntry, h1] at he
    · simp only [formatCircuitEntry, h1] at he
      injection he with he
      subst he
      exact ⟨s, rfl, rfl⟩
  | vbig n =>
    rcases h1 : formatInputValue (.vbig n) with e | s
    · simp [formatCircuitEntry, h1] at he
    · simp only [formatCircuitEntry, h1] at he
      injection he with he
      subst he
      exact ⟨s, rfl, rfl⟩

/-- C8 (amended).  On success the formatter returns a mapping with exactly
the same field names in the same order; scalar values are converted to
decimal strings (numbers and bigints render decimal, plain decimal strings
pass through); flat (1-level) sequence values are converted element-wise;
2-level nesting is not supported — a nested array leaf is coerced by
`String()` into a single comma-joined string instead of being recursed. -/
theorem formatter_amended (kvs : List (String × JSValue))
    (out : List (String × FormattedValue))
    (hok : formatCircuitInputs kvs = .ok out) :
    out.map Prod.fst = kvs.map Prod.fst ∧
    List.Forall₂ (fun (kv : String × JSValue) (ov : String × FormattedValue) =>
      kv.1 = ov.1 ∧
      ((∃ vs, kv.2 = .varr vs ∧ ∃ ss, ov.2 = .arr ss ∧
          formatInputArray vs = .ok ss ∧ ss.length = vs.length) ∨
        ((∀ vs, kv.2 ≠ .varr vs) ∧
          ∃ s, ov.2 = .scalar s ∧ formatInputValue kv.2 = .ok s))) kvs out ∧
    (∀ n, formatInputValue (.vnum n) = .ok (Nat.repr n)) ∧
    (∀ n, formatInputValue (.vbig n) = .ok (Nat.repr n)) ∧
    (∀ s, ¬s.startsWith "0x" → formatInputValue (.vstr s) = .ok s) := by
  have hforall : List.Forall₂ (fun (kv : String × JSValue) (ov : String × FormattedValue) =>
      kv.1 = ov.1 ∧
      ((∃ vs, kv.2 = .varr vs ∧ ∃ ss, ov.2 = .arr ss ∧
          formatInputArray vs = .ok ss ∧ ss.length = vs.length) ∨
        ((∀ vs, kv.2 ≠ .varr vs) ∧
          ∃ s, ov.2 = .scalar s ∧ formatInputValue kv.2 = .ok s))) kvs out := by
    induction kvs generalizing out with
    | nil =>
      simp only [formatCircuitInputs] at hok
      injection hok with hok
      rw [← hok]
      exact List.Forall₂.nil
    | cons kv rest ih =>
      obtain ⟨k, v⟩ := kv
      rcases he : formatCircuitEntry v with e | fv
      · simp [formatCircuitInputs, he] at hok
      · rcases hr : formatCircuitInputs rest with e | outRest
        · simp [formatCircuitInputs, he, hr] at hok
        · simp only [formatCircuitInputs, he, hr] at hok
          injection hok with hok
          rw [← hok]
          refine List.Forall₂.cons ⟨rfl, ?_⟩ (ih outRest hr)
          by_cases hva : ∃ vs, v = .varr vs
          · obtain ⟨vs, rfl⟩ := hva
            rcases ha : formatInputArray vs with e | ss
            · simp [formatCircuitEntry, ha] at he
            · simp only [formatCircuitEntry, ha] at he
              injection he with he
              subst he
              exact Or.inl ⟨vs, rfl, ss, rfl, ha, formatInputArray_length vs ss ha⟩
          · push_neg at hva
            obtain ⟨s, hfv, hval⟩ := formatCircuitEntry_nonarr v fv hva he
            exact Or.inr ⟨hva, s, hfv, hval⟩
  have hkeys : out.map Prod.fst = kvs.map Prod.fst := by
    clear hok
    induction hforall with
    | nil => rfl
    | cons h1 h2 ih => simp [ih, h1.1]
  exact ⟨hkeys, hforall, fun n => rfl, fun n => rfl,
    fun s hs => by simp [formatInputValue, hs]⟩

/-- Witness for C8 (amended): a concrete bundle with a number scalar, a
bigint scalar and a flat array. -/
theorem formatter_amended_witness :
    formatCircuitInputs [("amount", .vnum 100), ("asset_id", .vbig 7),
        ("path", .varr [.vnum 1, .vnum 2, .vnum 3])] =
      .ok [("amount", .scalar "100"), ("asset_id", .scalar "7"),
        ("path", .arr ["1", "2", "3"])] ∧
    [("amount", FormattedValue.scalar "100"), ("asset_id", .scalar "7"),
        ("path", .arr ["1", "2", "3"])].map Prod.fst =
      [("amount", JSValue.vnum 100), ("asset_id", .vbig 7),
        ("path", .varr [.vnum 1, .vnum 2, .vnum 3])].map Prod.fst :=
  ⟨rfl, (formatter_amended
    [("amount", .vnum 100), ("asset_id", .vbig 7),
      ("path", .varr [.vnum 1, .vnum 2, .vnum 3])]
    [("amount", .scalar "100"), ("asset_id", .scalar "7"),
      ("path", .arr ["1", "2", "3"])] rfl).1⟩

end Orbinum
